import Mathlib

/-!
Verification development for the pdf-context-search engine
(`src/src-tauri/src/pdf_search.rs`).

Strings are embedded as `List Char` (Rust `String` / `&str` at character
granularity); byte-level UTF-8 questions are treated separately by an
explicit byte-offset model near the end of the file.  Fallible Rust
functions returning `anyhow::Result` are embedded as `Except String`.
The external `regex` crate is abstracted as a `RegexEngine` parameter:
compilation may fail, and a compiled pattern is a total function from a
haystack to its list of non-overlapping match spans.
-/

namespace PdfSearch

/-- Model of Rust `char::is_whitespace` (the Unicode `White_Space`
property), listing the White_Space code points explicitly. -/
def rust_is_whitespace (c : Char) : Bool :=
  c = '\u0009' || c = '\u000A' || c = '\u000B' || c = '\u000C' || c = '\u000D' ||
  c = ' ' || c = '\u0085' || c = ' ' || c = ' ' ||
  c = ' ' || c = ' ' || c = ' ' || c = ' ' || c = ' ' ||
  c = ' ' || c = ' ' || c = ' ' || c = ' ' || c = ' ' ||
  c = ' ' || c = ' ' || c = ' ' || c = ' ' || c = ' ' ||
  c = '　'

/-- Model of Rust `str::to_lowercase` restricted to the ASCII fragment,
where that function is exactly this per-character, length-preserving,
context-free mapping.  Full Unicode case mapping is *not* per-character:
it is context-dependent (word-final `Σ` lowers to `ς`, not `σ`) and can
change the length of the string (U+0130 lowers to `i` + U+0307), so this
model is faithful only on ASCII input.  Theorems whose truth depends on
case folding therefore restrict their inputs to ASCII (and prove the
agreement with the byte-level `rust_to_lowercase` model there); the
length-changing behavior itself is treated by the byte-offset model at
the end of the file. -/
def to_lowercase (s : List Char) : List Char :=
  s.map Char.toLower

/-- `normalize_text` from pdf_search.rs: drop every whitespace and
hyphen separator listed in the source's `match`, keep everything else in
order.  The Rust `match` arms `' ' | '\t' | '\n' | '\r' | '\u{00A0}' |
'\u{2007}' | '\u{202F}' => None`, `'-' | '\u{00AD}' | '\u{2010}' |
'\u{2011}' => None`, `_ => Some(c)` are rendered as the corresponding
character-equality test. -/
def normalize_text (text : List Char) : List Char :=
  text.filterMap fun c =>
    if c = ' ' ∨ c = '\t' ∨ c = '\n' ∨ c = '\r' ∨ c = '\u00A0' ∨ c = '\u2007' ∨ c = '\u202F'
       ∨ c = '-' ∨ c = '\u00AD' ∨ c = '\u2010' ∨ c = '\u2011'
    then none else some c

/-- Auxiliary recursion for `split_into_words`: accumulate the current
word (reversed) while scanning. -/
def split_words_aux : List Char → List Char → List (List Char)
  | [], acc => if acc.isEmpty then [] else [acc.reverse]
  | c :: rest, acc =>
    if rust_is_whitespace c then
      if acc.isEmpty then split_words_aux rest []
      else acc.reverse :: split_words_aux rest []
    else split_words_aux rest (c :: acc)

/-- `split_into_words` from pdf_search.rs: `text.split_whitespace()`
(maximal runs of non-whitespace characters, empty tokens dropped). -/
def split_into_words (text : List Char) : List (List Char) :=
  split_words_aux text []

/-- The context string preceding a match: the last `context_words`
whitespace-split tokens of `before_text`, joined by single spaces
(`before_words.iter().rev().take(cw).rev().join(" ")`). -/
def context_before_of (context_words : Nat) (before_text : List Char) : List Char :=
  List.intercalate [' '] (((split_into_words before_text).reverse.take context_words).reverse)

/-- The context string following a match: the first `context_words`
whitespace-split tokens of `after_text`, joined by single spaces
(`after_words.iter().take(cw).join(" ")`). -/
def context_after_of (context_words : Nat) (after_text : List Char) : List Char :=
  List.intercalate [' '] ((split_into_words after_text).take context_words)

/-- Leftmost occurrence of `needle` in `haystack`, as a character
offset; model of Rust `str::find` (which returns byte offsets — at
character granularity the two agree positionally). -/
def findSubstr (haystack needle : List Char) : Option Nat :=
  if needle.isPrefixOf haystack then some 0
  else
    match haystack with
    | [] => none
    | _ :: t => (findSubstr t needle).map (· + 1)

/-- Abstraction of the external `regex` crate.  `compile p` is `none`
exactly when `Regex::new(p)` would fail; a compiled pattern maps a
haystack to the list of `(start, end)` spans that `find_iter` yields. -/
structure RegexEngine where
  compile : List Char → Option (List Char → List (Nat × Nat))

/-- A single `(context_before, matched_text, context_after)` tuple. -/
abbrev MatchTuple := List Char × List Char × List Char

/-- The literal-mode scan loop of `search_in_page`, with explicit fuel.
Each iteration searches `page_lower` from `search_start` for `query`,
slices `matched_text` out of `norm_page` at the found span, computes the
context strings, and resumes at `match_end`.  `none` means the fuel ran
out, i.e. the source's `while let` loop has not finished within `fuel`
iterations (for a non-empty query the loop strictly advances, so enough
fuel always exists; for an empty normalized query `match_end =
search_start` and the loop never finishes — see the claim about
empty-query termination). -/
def literal_loop (fuel : Nat) (norm_page page_lower query : List Char)
    (context_words search_start : Nat) : Option (List MatchTuple) :=
  match fuel with
  | 0 => none
  | fuel + 1 =>
    match findSubstr (page_lower.drop search_start) query with
    | none => some []
    | some match_pos =>
      let absolute_pos := search_start + match_pos
      let match_end := absolute_pos + query.length
      let matched_text := (norm_page.drop absolute_pos).take query.length
      let before_text := norm_page.take absolute_pos
      let after_text := norm_page.drop match_end
      let cb := context_before_of context_words before_text
      let ca := context_after_of context_words after_text
      match literal_loop fuel norm_page page_lower query context_words match_end with
      | none => none
      | some rest => some ((cb, matched_text, ca) :: rest)

/-- Marker for the value `search_in_page`'s literal branch is given when
its scan loop cannot finish: the Rust source diverges there, which this
total model records as a distinguished error string that the source
never produces. -/
def nontermination_marker : String := "literal scan loop does not terminate"

/-- `search_in_page` from pdf_search.rs.  Regex mode: prepend `(?i)`,
compile via the engine (compilation failure is the propagated
`InvalidPattern` error), then map every span that `find_iter` yields to
its match tuple.  Literal mode: lowercase query and page, scan with
`literal_loop`; the fuel `norm_page.length + 1` is sufficient whenever
the normalized query is non-empty. -/
def search_in_page (eng : RegexEngine) (page_text query : List Char)
    (context_words : Nat) (use_regex : Bool) : Except String (List MatchTuple) :=
  let normalized_query := normalize_text query
  let normalized_page := normalize_text page_text
  if use_regex then
    match eng.compile ('(' :: '?' :: 'i' :: ')' :: normalized_query) with
    | none => .error "InvalidPattern"
    | some finder =>
      .ok ((finder normalized_page).map fun span =>
        let matched_text := (normalized_page.drop span.1).take (span.2 - span.1)
        let before_text := normalized_page.take span.1
        let after_text := normalized_page.drop span.2
        (context_before_of context_words before_text, matched_text,
         context_after_of context_words after_text))
  else
    let search_query := to_lowercase normalized_query
    let normalized_page_lower := to_lowercase normalized_page
    match literal_loop (normalized_page.length + 1) normalized_page
        normalized_page_lower search_query context_words 0 with
    | some ms => .ok ms
    | none => .error nontermination_marker

/-- Zotero bibliographic metadata for one attachment (pdf_search.rs
`ZoteroMetadata`). -/
structure ZoteroMetadata where
  citekey : List Char
  title : Option (List Char)
  year : Option (List Char)
  authors : Option (List Char)
  zotero_link : List Char
  pdf_attachment_key : Option (List Char)
deriving DecidableEq, Repr

/-- One emitted search result (pdf_search.rs `SearchMatch`). -/
structure SearchMatch where
  file_path : List Char
  file_name : List Char
  page_number : Nat
  context_before : List Char
  matched_text : List Char
  context_after : List Char
  zotero_link : Option (List Char)
  zotero_metadata : Option ZoteroMetadata
deriving DecidableEq, Repr

/-- One user query (pdf_search.rs `QueryItem`).  `query_type` is the
role tag, `"parallel"` or `"filter"`; `color` is the highlight color. -/
structure QueryItem where
  query : List Char
  use_regex : Bool
  query_type : String
  color : String
deriving DecidableEq, Repr

/-- `default_query_type` from pdf_search.rs: the serde default used when
a submitted query carries no explicit role tag. -/
def default_query_type : String := "parallel"

/-- `default_color` from pdf_search.rs. -/
def default_color : String := "#ffff00"

/-- A `QueryItem` as deserialized from the wire: absent `query_type` or
`color` fields fall back to the serde defaults. -/
def QueryItem.ofWire (query : List Char) (use_regex : Bool)
    (role : Option String) (color : Option String) : QueryItem :=
  { query := query, use_regex := use_regex,
    query_type := role.getD default_query_type,
    color := color.getD default_color }

/-- A document as delivered by the external PDF library: for each
physical page, `some text` when `doc.extract_text` succeeds and `none`
when it fails. -/
abbrev PdfDoc := List (Option (List Char))

/-- Auxiliary recursion for `extract_text_from_pdf`: number the pages
starting at `idx`, replacing a failed extraction by the empty string. -/
def extract_pages_from (idx : Nat) : PdfDoc → List (Nat × List Char)
  | [] => []
  | t :: rest => (idx, t.getD []) :: extract_pages_from (idx + 1) rest

/-- `extract_text_from_pdf` from pdf_search.rs: the loop
`for page_num in 1..=page_count` pushing `(page_num, text)` and an empty
string for pages whose extraction errors. -/
def extract_text_from_pdf (doc : PdfDoc) : List (Nat × List Char) :=
  extract_pages_from 1 doc

/-- Index of the last occurrence of `c` in `s` (Rust `str::rfind`). -/
def rfindChar (s : List Char) (c : Char) : Option Nat :=
  match s with
  | [] => none
  | x :: rest =>
    match rfindChar rest c with
    | some i => some (i + 1)
    | none => if x = c then some 0 else none

/-- The text after the last `/` of `p`, or all of `p`
(`path.rsplit('/').next().unwrap_or(&path)`). -/
def after_last_slash (p : List Char) : List Char :=
  match rfindChar p '/' with
  | some i => p.drop (i + 1)
  | none => p

/-- The final path component (Rust `Path::file_name().unwrap_or_default()`,
restricted to `/`-separated paths without trailing separators). -/
def file_name_of (path : List Char) : List Char :=
  after_last_slash path

/-- The filter-role sublist of a query list, in order
(`queries.iter().filter(|q| q.query_type == "filter")`). -/
def filter_queries_of (queries : List QueryItem) : List QueryItem :=
  queries.filter fun q => q.query_type == "filter"

/-- The parallel-role sublist of a query list, in order
(`queries.iter().filter(|q| q.query_type == "parallel")`). -/
def parallel_queries_of (queries : List QueryItem) : List QueryItem :=
  queries.filter fun q => q.query_type == "parallel"

/-- The inner page loop of the filter pass: scan the pages in order for
`query_item`; stop with `true` at the first page with a non-empty match
list, with `false` if no page matches; a page whose `search_in_page`
errors propagates that error. -/
def found_in_pdf (eng : RegexEngine) (pages : List (Nat × List Char))
    (query_item : QueryItem) (context_words : Nat) : Except String Bool :=
  match pages with
  | [] => .ok false
  | (_, page_text) :: rest => do
    let page_hits ← search_in_page eng page_text query_item.query context_words query_item.use_regex
    if page_hits.isEmpty then found_in_pdf eng rest query_item context_words
    else .ok true

/-- The filter pass of `search_pdf_with_queries`: walk the filter
queries in order; the first one found nowhere in the document stops the
pass with `false` (the source's early `return Ok(Vec::new())`). -/
def run_filters (eng : RegexEngine) (pages : List (Nat × List Char))
    (filters : List QueryItem) (context_words : Nat) : Except String Bool :=
  match filters with
  | [] => .ok true
  | f :: rest => do
    let found ← found_in_pdf eng pages f context_words
    if found then run_filters eng pages rest context_words
    else .ok false

/-- The inner page loop of the parallel pass: all matches of one query
across the pages in page order, each packaged as a `SearchMatch`
carrying the page's number and the document's path, name and Zotero
fields. -/
def page_matches (eng : RegexEngine) (file_path file_name : List Char)
    (zotero_link : Option (List Char)) (zotero_metadata : Option ZoteroMetadata)
    (query_item : QueryItem) (context_words : Nat) :
    List (Nat × List Char) → Except String (List SearchMatch)
  | [] => .ok []
  | (page_num, page_text) :: rest => do
    let page_hits ← search_in_page eng page_text query_item.query context_words query_item.use_regex
    let tail ← page_matches eng file_path file_name zotero_link zotero_metadata
      query_item context_words rest
    .ok ((page_hits.map fun t =>
      { file_path := file_path, file_name := file_name, page_number := page_num,
        context_before := t.1, matched_text := t.2.1, context_after := t.2.2,
        zotero_link := zotero_link, zotero_metadata := zotero_metadata }) ++ tail)

/-- The parallel pass of `search_pdf_with_queries`: queries in the outer
loop, pages in the inner loop, results appended in that order. -/
def collect_matches (eng : RegexEngine) (file_path file_name : List Char)
    (zotero_link : Option (List Char)) (zotero_metadata : Option ZoteroMetadata)
    (context_words : Nat) (pages : List (Nat × List Char)) :
    List QueryItem → Except String (List SearchMatch)
  | [] => .ok []
  | q :: rest => do
    let first ← page_matches eng file_path file_name zotero_link zotero_metadata
      q context_words pages
    let tail ← collect_matches eng file_path file_name zotero_link zotero_metadata
      context_words pages rest
    .ok (first ++ tail)

/-- A prebuilt Zotero index, keyed by bare attachment filename. -/
abbrev ZoteroMap := List (List Char × ZoteroMetadata)

/-- Association-list lookup (model of `HashMap::get`). -/
def zlookup (m : ZoteroMap) (k : List Char) : Option ZoteroMetadata :=
  match m.find? (fun e => e.1 = k) with
  | some e => some e.2
  | none => none

/-- `search_pdf_with_queries` from pdf_search.rs.  The document's pages
are the extraction result; the Zotero link and metadata come from the
optional map keyed by the file name; then the filter pass either rejects
the document with an empty result or hands the parallel queries (or,
when there are none and the list is non-empty, the first query of the
original list) to the parallel pass. -/
def search_pdf_with_queries (eng : RegexEngine) (pdf_path : List Char)
    (doc : PdfDoc) (queries : List QueryItem) (context_words : Nat)
    (zotero_map : Option ZoteroMap) : Except String (List SearchMatch) :=
  let pages := extract_text_from_pdf doc
  let file_name := file_name_of pdf_path
  let zentry := zotero_map.bind fun m => zlookup m file_name
  let zotero_link := zentry.map (·.zotero_link)
  let zotero_metadata := zentry
  do
    let pass ← run_filters eng pages (filter_queries_of queries) context_words
    if pass then
      let queries_to_search : List QueryItem :=
        match parallel_queries_of queries, queries with
        | [], q0 :: _ => [q0]
        | ps, _ => ps
      collect_matches eng pdf_path file_name zotero_link zotero_metadata
        context_words pages queries_to_search
    else .ok []

/-- A corpus as the orchestrator sees it: the files found under the
root directory, each with its extraction outcome. -/
abbrev Corpus := List (List Char × PdfDoc)

/-- `search_pdfs` from pdf_search.rs, with directory walking and text
extraction abstracted into the given corpus: empty query list or empty
corpus return immediately; otherwise every file is evaluated and a
file whose evaluation errors is dropped from the aggregate
(`filter_map` with `Err(_) => None`). -/
def search_pdfs (eng : RegexEngine) (corpus : Corpus)
    (queries : List QueryItem) (context_words : Nat)
    (zotero_map : Option ZoteroMap) : List SearchMatch :=
  if queries.isEmpty then []
  else if corpus.isEmpty then []
  else
    (corpus.map fun file =>
      match search_pdf_with_queries eng file.1 file.2 queries context_words zotero_map with
      | .ok ms => ms
      | .error _ => []).flatten

/-! ### Metadata linker (`build_zotero_map`) with an explicit file-system state

The SQLite layer is abstracted as oracles for each query the source
makes; the temporary-file side effects are tracked as an explicit list
of temp files currently on disk, threaded through every exit path in
source order. -/

/-- One row of the attachment join query in `build_zotero_map`. -/
structure ZRow where
  attachmentId : Int
  attachmentKey : List Char
  path : List Char
  parentId : Option Int
  parentKey : Option (List Char)
deriving Repr

/-- The environment `build_zotero_map` runs against: which database
files exist, whether each fallible step (file copy, connection open,
statement preparation, row query) succeeds, and oracles for the
per-item SQL lookups (`get_item_field`, `get_item_creators`,
`get_better_bibtex_citekey`). -/
structure ZoteroEnv where
  zoteroDbExists : Bool
  bbtDbExists : Bool
  copyZoteroOk : Bool
  openZoteroOk : Bool
  copyBbtOk : Bool
  openBbtOk : Bool
  prepareOk : Bool
  queryRows : Option (List ZRow)
  getField : Int → String → Option (List Char)
  getCreators : Int → Option (List Char)
  getCitekey : List Char → Option (List Char)

/-- The temp copy of `zotero.sqlite` (`zotero_temp_{pid}.sqlite`; the
pid component is abstracted away). -/
def temp_zotero_db : List Char := "zotero_temp.sqlite".toList

/-- The temp copy of `better-bibtex.sqlite`. -/
def temp_bbt_db : List Char := "better-bibtex_temp.sqlite".toList

/-- Filename extraction in `build_zotero_map`: the part after the last
`:` when one exists (the `storage:file.pdf` form), otherwise the part
after the last `/`. -/
def extract_filename (p : List Char) : List Char :=
  match rfindChar p ':' with
  | some colon_pos => p.drop (colon_pos + 1)
  | none => after_last_slash p

/-- Maximal ASCII-digit runs of `s`: model of
`date_str.split(|c: char| !c.is_numeric())` restricted to the digits
that the subsequent `parse::<i32>` accepts (empty parts between
consecutive separators are kept, as in Rust `split`). -/
def digit_runs : List Char → List (List Char)
  | [] => [[]]
  | c :: rest =>
    match digit_runs rest with
    | [] => [[]]
    | r :: rs => if c.isDigit then (c :: r) :: rs else [] :: r :: rs

/-- Numeric value of an ASCII digit run. -/
def digits_to_nat (s : List Char) : Nat :=
  s.foldl (fun acc c => acc * 10 + (c.toNat - '0'.toNat)) 0

/-- `extract_year` from pdf_search.rs: the first part of exactly four
digits whose value as a number lies in 1000..=9999. -/
def extract_year (date : Option (List Char)) : Option (List Char) :=
  match date with
  | none => none
  | some date_str =>
    (digit_runs date_str).findSome? fun part =>
      if part.length = 4 ∧ 1000 ≤ digits_to_nat part ∧ digits_to_nat part ≤ 9999
      then some part else none

/-- Insert into the filename-keyed map, later inserts overwriting
(model of `HashMap::insert`). -/
def zinsert (m : ZoteroMap) (k : List Char) (v : ZoteroMetadata) : ZoteroMap :=
  (m.filter fun e => ¬ e.1 = k) ++ [(k, v)]

/-- The per-row body of `build_zotero_map`'s result loop: filename
extraction, parent-record fallback, field lookups, citation-key
resolution with fallback to the record's native key. -/
def process_row (env : ZoteroEnv) (hasBbt : Bool) (m : ZoteroMap) (row : ZRow) : ZoteroMap :=
  let filename := extract_filename row.path
  let pdf_attachment_key := row.attachmentKey
  let item : Int × List Char :=
    match row.parentId, row.parentKey with
    | some pid, some pkey => (pid, pkey)
    | _, _ => (row.attachmentId, row.attachmentKey)
  let title := env.getField item.1 "title"
  let date := env.getField item.1 "date"
  let year := extract_year date
  let authors := env.getCreators item.1
  let bibtex_citekey := if hasBbt then env.getCitekey item.2 else none
  let citekey := bibtex_citekey.getD item.2
  zinsert m filename
    { citekey := citekey, title := title, year := year, authors := authors,
      zotero_link := "zotero://select/library/items/".toList ++ item.2,
      pdf_attachment_key := some pdf_attachment_key }

/-- The tail of `build_zotero_map` after both connections are open:
statement preparation, the row query, the row loop, and the cleanup of
the temp copies that only this success path reaches. -/
def build_zotero_map_rows (env : ZoteroEnv) (hasBbt : Bool) (fs : List (List Char)) :
    Except (List Char) ZoteroMap × List (List Char) :=
  if ¬ env.prepareOk then (.error "prepare failed".toList, fs)
  else
    match env.queryRows with
    | none => (.error "query failed".toList, fs)
    | some rows =>
      let m := rows.foldl (process_row env hasBbt) []
      let fs1 := fs.filter fun f => ¬ f = temp_zotero_db
      let fs2 := if hasBbt then fs1.filter (fun f => ¬ f = temp_bbt_db) else fs1
      (.ok m, fs2)

/-- `build_zotero_map` from pdf_search.rs, with the set of temp files
currently on disk made explicit as the second component.  Every `?`
early return of the source leaves the temp files created so far in
place; only the tail of the success path removes them. -/
def build_zotero_map (env : ZoteroEnv) : Except (List Char) ZoteroMap × List (List Char) :=
  if ¬ env.zoteroDbExists then (.error "Zotero database not found".toList, [])
  else if ¬ env.copyZoteroOk then
    (.error "Failed to create temporary copy of Zotero database".toList, [])
  else
    let fs1 := [temp_zotero_db]
    if ¬ env.openZoteroOk then (.error "Failed to open Zotero database".toList, fs1)
    else if env.bbtDbExists then
      if ¬ env.copyBbtOk then
        (.error "Failed to create temporary copy of Better BibTeX database".toList, fs1)
      else
        let fs2 := fs1 ++ [temp_bbt_db]
        if ¬ env.openBbtOk then
          (.error "Failed to open Better BibTeX database".toList, fs2)
        else build_zotero_map_rows env true fs2
    else build_zotero_map_rows env false fs1

/-! ### Byte-offset model of the literal search

Rust slices strings by UTF-8 byte offsets and panics on an offset that
is out of bounds or not a character boundary.  The literal branch of
`search_in_page` finds its offsets in `normalized_page.to_lowercase()`
but slices `normalized_page` with them, so the two strings' byte
layouts must agree at the found span.  This section models exactly that
byte arithmetic. -/

/-- UTF-8 encoded size of a character, from the encoding ranges. -/
def utf8_size (c : Char) : Nat :=
  if c.toNat < 0x80 then 1
  else if c.toNat < 0x800 then 2
  else if c.toNat < 0x10000 then 3
  else 4

/-- UTF-8 byte length of a string (`str::len`). -/
def byte_len (s : List Char) : Nat :=
  (s.map utf8_size).sum

/-- Whether byte index `i` is a character boundary of `s`, including
the end of the string (`str::is_char_boundary`). -/
def is_char_boundary (s : List Char) (i : Nat) : Bool :=
  match s with
  | [] => i = 0
  | c :: rest => i = 0 || (utf8_size c ≤ i && is_char_boundary rest (i - utf8_size c))

/-- Rust `str::to_lowercase` on one character, with its multi-character
Unicode special casing; modelled on the fragment exercised here: ASCII,
plus U+0130 (LATIN CAPITAL LETTER I WITH DOT ABOVE), which lowercases
to the two characters U+0069 U+0307. -/
def rust_lower_char (c : Char) : List Char :=
  if c = 'İ' then ['i', '̇'] else [c.toLower]

/-- Rust `str::to_lowercase` on a string (concatenation of the
per-character lowercasings). -/
def rust_to_lowercase (s : List Char) : List Char :=
  (s.map rust_lower_char).flatten

/-- Byte offset of the leftmost occurrence of `needle` in `haystack`
(Rust `str::find` of one valid UTF-8 string in another: because UTF-8
is self-synchronizing, byte-level occurrences start at character
boundaries, so the byte offset is the byte length of the preceding
characters). -/
def byte_find (haystack needle : List Char) : Option Nat :=
  (findSubstr haystack needle).map fun i => byte_len (haystack.take i)

/-- The byte offsets `(absolute_pos, match_end)` computed by the first
iteration of the literal scan loop (`search_start = 0`): the query and
page are normalized, both are lowercased, and the lowered query is
searched for in the lowered page; `match_end` adds the lowered query's
byte length (`search_query.len()`). -/
def literal_byte_offsets (page_text query : List Char) : Option (Nat × Nat) :=
  let normalized_page := normalize_text page_text
  let search_query := rust_to_lowercase (normalize_text query)
  let normalized_page_lower := rust_to_lowercase normalized_page
  (byte_find normalized_page_lower search_query).map fun absolute_pos =>
    (absolute_pos, absolute_pos + byte_len search_query)

/-- Whether `s[a..b]` is a panic-free Rust slice: ordered offsets, both
on character boundaries (a boundary check subsumes the bounds check). -/
def slice_ok (s : List Char) (a b : Nat) : Bool :=
  a ≤ b && is_char_boundary s a && is_char_boundary s b

/-- Rust `char::is_ascii`.  On ASCII strings `str::to_lowercase` is the
per-character ASCII mapping — length-preserving and context-free — so
the character-level `to_lowercase` model is exact precisely there, and
UTF-8 byte offsets coincide with character offsets. -/
def char_is_ascii (c : Char) : Bool := c.toNat < 0x80

/-! ### A concrete regex engine for witnesses

A trivial but executable instance of the `RegexEngine` interface:
compilation fails exactly on a pattern containing `[` (an unclosed
character class is the classic compile error), and a compiled pattern
matches nothing.  Witnesses and counterexamples that need a concrete
engine use it; no theorem about the source depends on its behavior
beyond the interface. -/

/-- The concrete engine used by witnesses. -/
def toy_engine : RegexEngine :=
  { compile := fun p => if p.contains '[' then none else some fun _ => [] }

/-- Decidable equality for `Except`, so witness statements about
concrete pipeline runs can be settled by `decide`. -/
instance {ε α : Type} [DecidableEq ε] [DecidableEq α] : DecidableEq (Except ε α)
  | .error x, .error y =>
    if h : x = y then .isTrue (by rw [h]) else .isFalse (by intro hc; cases hc; exact h rfl)
  | .error _, .ok _ => .isFalse (by intro hc; cases hc)
  | .ok _, .error _ => .isFalse (by intro hc; cases hc)
  | .ok x, .ok y =>
    if h : x = y then .isTrue (by rw [h]) else .isFalse (by intro hc; cases hc; exact h rfl)

/-- The separator characters listed by the spec (§4.1): space, tab,
newline, carriage return, no-break space, the Unicode thin/narrow space
variants (figure space U+2007, narrow no-break space U+202F), plain
hyphen, soft hyphen U+00AD, and the Unicode hyphen variants (hyphen
U+2010, non-breaking hyphen U+2011).  Stated from the spec's words, to
be compared against `normalize_text` as translated from the source. -/
def spec_separator (c : Char) : Bool :=
  decide (c ∈ [' ', '\t', '\n', '\r', '\u00A0', '\u2007', '\u202F', '-', '\u00AD', '\u2010', '\u2011'])

/-! ## Helper lemmas -/

theorem normalize_step (c : Char) :
    (if c = ' ' ∨ c = '\t' ∨ c = '\n' ∨ c = '\r' ∨ c = '\u00A0' ∨ c = '\u2007' ∨ c = '\u202F'
        ∨ c = '-' ∨ c = '\u00AD' ∨ c = '\u2010' ∨ c = '\u2011'
     then (none : Option Char) else some c) =
    if spec_separator c then none else some c := by
  have hiff : spec_separator c = true ↔
      (c = ' ' ∨ c = '\t' ∨ c = '\n' ∨ c = '\r' ∨ c = '\u00A0' ∨ c = '\u2007' ∨ c = '\u202F'
        ∨ c = '-' ∨ c = '\u00AD' ∨ c = '\u2010' ∨ c = '\u2011') := by
    simp [spec_separator]
  by_cases h : c = ' ' ∨ c = '\t' ∨ c = '\n' ∨ c = '\r' ∨ c = '\u00A0' ∨ c = '\u2007' ∨ c = '\u202F'
      ∨ c = '-' ∨ c = '\u00AD' ∨ c = '\u2010' ∨ c = '\u2011'
  · rw [if_pos h, hiff.mpr h]
    rfl
  · rw [if_neg h]
    have hf : spec_separator c = false := by
      cases hb : spec_separator c
      · rfl
      · exact absurd (hiff.mp hb) h
    rw [hf]
    rfl

theorem normalize_eq_filter (s : List Char) :
    normalize_text s = s.filter fun c => !(spec_separator c) := by
  induction s with
  | nil => rfl
  | cons c rest ih =>
    rw [normalize_text, List.filterMap_cons, normalize_step]
    rw [normalize_text] at ih
    cases hb : spec_separator c
    · simp only [List.filter_cons, hb, Bool.not_false, if_true, ih]
      rfl
    · simp only [List.filter_cons, hb, Bool.not_true, if_false, ih]
      rfl

theorem findSubstr_isPrefix {needle : List Char} :
    ∀ {hay : List Char} {i : Nat}, findSubstr hay needle = some i →
      needle.isPrefixOf (hay.drop i) = true := by
  intro hay
  induction hay with
  | nil =>
    intro i h
    rw [findSubstr] at h
    by_cases hp : needle.isPrefixOf ([] : List Char)
    · rw [if_pos hp] at h
      cases h
      simpa using hp
    · rw [if_neg hp] at h
      cases h
  | cons x t ih =>
    intro i h
    rw [findSubstr] at h
    by_cases hp : needle.isPrefixOf (x :: t)
    · rw [if_pos hp] at h
      cases h
      simpa using hp
    · rw [if_neg hp] at h
      simp only [Option.map_eq_some'] at h
      obtain ⟨j, hj, rfl⟩ := h
      rw [List.drop_succ_cons]
      exact ih hj

theorem findSubstr_isSome_of_isPrefix {needle : List Char} :
    ∀ (i : Nat) (hay : List Char), needle.isPrefixOf (hay.drop i) = true →
      (findSubstr hay needle).isSome := by
  intro i
  induction i with
  | zero =>
    intro hay h
    rw [findSubstr.eq_def, if_pos (by simpa using h)]
    rfl
  | succ i ih =>
    intro hay h
    match hay with
    | [] =>
      rw [findSubstr, if_pos (by simpa using h)]
      rfl
    | x :: t =>
      rw [List.drop_succ_cons] at h
      have ht := ih t h
      rw [findSubstr]
      by_cases hp : needle.isPrefixOf (x :: t)
      · rw [if_pos hp]
        rfl
      · rw [if_neg hp]
        simpa using ht

theorem findSubstr_bound {needle : List Char} :
    ∀ {hay : List Char} {i : Nat}, findSubstr hay needle = some i →
      i + needle.length ≤ hay.length := by
  intro hay
  induction hay with
  | nil =>
    intro i h
    rw [findSubstr] at h
    by_cases hp : needle.isPrefixOf ([] : List Char)
    · rw [if_pos hp] at h
      cases h
      have : needle <+: ([] : List Char) := List.isPrefixOf_iff_prefix.mp hp
      simpa using this.length_le
    · rw [if_neg hp] at h
      cases h
  | cons x t ih =>
    intro i h
    rw [findSubstr] at h
    by_cases hp : needle.isPrefixOf (x :: t)
    · rw [if_pos hp] at h
      cases h
      have := ( List.isPrefixOf_iff_prefix.mp hp).length_le
      simpa using this
    · rw [if_neg hp] at h
      simp only [Option.map_eq_some'] at h
      obtain ⟨j, hj, rfl⟩ := h
      have := ih hj
      simp only [List.length_cons]
      omega

theorem findSubstr_empty_needle (hay : List Char) : findSubstr hay [] = some 0 := by
  rw [findSubstr.eq_def, if_pos]
  simp [ List.isPrefixOf_iff_prefix]

theorem literal_loop_empty_query (cw : Nat) :
    ∀ (fuel : Nat) (norm_page page_lower : List Char) (s : Nat),
      literal_loop fuel norm_page page_lower [] cw s = none := by
  intro fuel
  induction fuel with
  | zero => intro _ _ _; rfl
  | succ fuel ih =>
    intro norm_page page_lower s
    rw [literal_loop, findSubstr_empty_needle]
    simp only [List.length_nil, Nat.add_zero]
    rw [ih]

theorem literal_loop_spec {query : List Char} (hq : query ≠ [])
    (norm_page : List Char) (cw : Nat) :
    ∀ (fuel s : Nat), (to_lowercase norm_page).length - s < fuel →
      ∃ ms, literal_loop fuel norm_page (to_lowercase norm_page) query cw s = some ms ∧
        (∀ t ∈ ms, to_lowercase t.2.1 = query) ∧
        ((findSubstr ((to_lowercase norm_page).drop s) query).isSome → ms ≠ []) := by
  intro fuel
  induction fuel with
  | zero =>
    intro s h
    exact absurd h (Nat.not_lt_zero _)
  | succ fuel ih =>
    intro s hs
    cases hfind : findSubstr ((to_lowercase norm_page).drop s) query with
    | none =>
      refine ⟨[], ?_, by simp, by simp [hfind]⟩
      rw [literal_loop, hfind]
    | some p =>
      have hbound := findSubstr_bound hfind
      have hlen : ((to_lowercase norm_page).drop s).length =
          (to_lowercase norm_page).length - s := List.length_drop ..
      have hql : 1 ≤ query.length := List.length_pos.mpr hq
      have hrec : (to_lowercase norm_page).length - (s + p + query.length) < fuel := by
        omega
      obtain ⟨rest, hrest, hall, -⟩ := ih (s + p + query.length) hrec
      have hmatched : to_lowercase ((norm_page.drop (s + p)).take query.length) = query := by
        have h1 : query.isPrefixOf (((to_lowercase norm_page).drop s).drop p) = true :=
          findSubstr_isPrefix hfind
      -- `(drop s l).drop p = drop (s + p) l`
        rw [List.drop_drop] at h1
        have h2 : query = ((to_lowercase norm_page).drop (s + p)).take query.length :=
          List.prefix_iff_eq_take.mp ( List.isPrefixOf_iff_prefix.mp h1)
        rw [to_lowercase, List.map_take, List.map_drop]
        exact (by simpa [to_lowercase] using h2.symm)
      refine ⟨(context_before_of cw (norm_page.take (s + p)),
               (norm_page.drop (s + p)).take query.length,
               context_after_of cw (norm_page.drop (s + p + query.length))) :: rest,
              ?_, ?_, by simp⟩
      · simp only [literal_loop, hfind]
        rw [hrest]
      · intro t ht
        rcases List.mem_cons.mp ht with rfl | hmem
        · exact hmatched
        · exact hall t hmem

/-! ## Claims -/

/-- **C7**: `normalize_text` removes exactly the separator characters the
spec lists — space, tab, newline, carriage return, no-break space, the
thin/narrow space variants U+2007 and U+202F, plain hyphen, soft hyphen,
and the hyphen variants U+2010 and U+2011 — and every other character
passes through unchanged, preserving relative order: the function equals
filtering out the spec's separator set, and its output is a sublist of
the input. -/
theorem normalize_text_removes_exactly_separators (s : List Char) :
    normalize_text s = s.filter (fun c => !(spec_separator c)) ∧
    (normalize_text s).Sublist s := by
  refine ⟨normalize_eq_filter s, ?_⟩
  rw [normalize_eq_filter s]
  exact List.filter_sublist s

/-- **C5**: the claim that `search_in_page` terminates on the empty query
fails in literal mode: with an empty (normalized) query the scan loop
finds the empty needle at its current position, sets `match_end =
search_start`, and never advances — `literal_loop` returns no result for
any amount of fuel, and the model's `search_in_page` can only report the
nontermination marker, whereas the Rust source loops forever.  (Regex
mode is unaffected: the compiled empty pattern's `find_iter` is finite.) -/
theorem empty_query_literal_scan_diverges (eng : RegexEngine)
    (page_text : List Char) (context_words : Nat) :
    (∀ fuel search_start, literal_loop fuel (normalize_text page_text)
        (to_lowercase (normalize_text page_text)) [] context_words search_start = none) ∧
    search_in_page eng page_text [] context_words false = .error nontermination_marker := by
  constructor
  · intro fuel s
    exact literal_loop_empty_query context_words fuel _ _ s
  · simp only [search_in_page]
    have hq : to_lowercase (normalize_text []) = ([] : List Char) := rfl
    rw [hq, literal_loop_empty_query]
    rfl

/-- **C6, as stated (refuted)**: for a literal query `q` contained (after
normalization) in the page text, not every run returns a match whose
`matched_text` normalizes back to `q`: page `"Aaa"` contains query `"aa"`
at offset 1, yet the case-insensitive left-to-right non-overlapping scan
returns the single match `"Aa"`, which does not normalize back to
`"aa"`. -/
theorem literal_match_case_mismatch_cex :
    (normalize_text "aa".toList).isPrefixOf ((normalize_text "Aaa".toList).drop 1) = true ∧
    search_in_page toy_engine "Aaa".toList "aa".toList 0 false =
      .ok [([], ['A', 'a'], [])] ∧
    normalize_text ['A', 'a'] ≠ "aa".toList := by
  refine ⟨by decide, by decide, by decide⟩

theorem mem_of_mem_normalize {c : Char} {s : List Char}
    (h : c ∈ normalize_text s) : c ∈ s := by
  rw [normalize_eq_filter] at h
  exact List.mem_of_mem_filter h

theorem rust_lower_char_ascii (c : Char) (h : char_is_ascii c = true) :
    rust_lower_char c = [c.toLower] := by
  rw [rust_lower_char, if_neg]
  intro hc
  subst hc
  exact absurd h (by decide)

theorem rust_to_lowercase_ascii :
    ∀ (s : List Char), (∀ c ∈ s, char_is_ascii c = true) →
      rust_to_lowercase s = to_lowercase s := by
  intro s
  induction s with
  | nil => intro _; rfl
  | cons c rest ih =>
    intro h
    have hrest := ih fun x hx => h x (List.mem_cons_of_mem _ hx)
    rw [rust_to_lowercase, to_lowercase] at hrest
    rw [rust_to_lowercase, List.map_cons, List.flatten_cons,
      rust_lower_char_ascii c (h c (List.mem_cons_self _ _)),
      to_lowercase, List.map_cons, hrest]
    rfl

theorem byte_len_ascii :
    ∀ (s : List Char), (∀ c ∈ s, char_is_ascii c = true) →
      byte_len s = s.length := by
  intro s
  induction s with
  | nil => intro _; rfl
  | cons c rest ih =>
    intro h
    have h1 : utf8_size c = 1 := by
      rw [utf8_size, if_pos]
      simpa [char_is_ascii] using h c (List.mem_cons_self _ _)
    have hrest := ih fun x hx => h x (List.mem_cons_of_mem _ hx)
    rw [byte_len, List.map_cons, List.sum_cons, h1]
    rw [byte_len] at hrest
    rw [hrest, List.length_cons, Nat.add_comm]

/-- **C6, amended** (ASCII fragment): for page text and query made of
ASCII characters — the fragment on which Rust `str::to_lowercase`
coincides with the per-character lowercasing used by this model (full
Unicode case mapping is context-dependent: word-final `Σ` lowers to `ς`
so the program can miss an exactly-contained `Σ`; and length-changing:
U+0130 makes the program panic, see the byte-offset claim) — a literal
query with non-empty normalized form (the empty case diverges, see the
empty-query claim) contained contiguously in the normalized page yields
at least one match, and every returned `matched_text` equals the
normalized query up to ASCII case; the matched text need not reproduce
the query's exact case.  On this fragment the byte-level lowercase
model agrees with the character-level one on both the page and the
query, and byte offsets coincide with character offsets, which the
first three conjuncts record. -/
theorem literal_query_contained_yields_match (eng : RegexEngine)
    (page_text query : List Char) (context_words : Nat)
    (hpa : ∀ c ∈ page_text, char_is_ascii c = true)
    (hqa : ∀ c ∈ query, char_is_ascii c = true)
    (hne : normalize_text query ≠ [])
    (hcont : ∃ i, (normalize_text query).isPrefixOf
      ((normalize_text page_text).drop i) = true) :
    rust_to_lowercase (normalize_text page_text) =
      to_lowercase (normalize_text page_text) ∧
    rust_to_lowercase (normalize_text query) =
      to_lowercase (normalize_text query) ∧
    byte_len (normalize_text page_text) = (normalize_text page_text).length ∧
    ∃ ms, search_in_page eng page_text query context_words false = .ok ms ∧ ms ≠ [] ∧
      ∀ t ∈ ms, to_lowercase t.2.1 = to_lowercase (normalize_text query) := by
  have hpa' : ∀ c ∈ normalize_text page_text, char_is_ascii c = true :=
    fun c hc => hpa c (mem_of_mem_normalize hc)
  have hqa' : ∀ c ∈ normalize_text query, char_is_ascii c = true :=
    fun c hc => hqa c (mem_of_mem_normalize hc)
  refine ⟨rust_to_lowercase_ascii _ hpa', rust_to_lowercase_ascii _ hqa',
    byte_len_ascii _ hpa', ?_⟩
  obtain ⟨i, hi⟩ := hcont
  have hq' : to_lowercase (normalize_text query) ≠ [] := by
    simpa [to_lowercase] using hne
  have hpref : (to_lowercase (normalize_text query)).isPrefixOf
      ((to_lowercase (normalize_text page_text)).drop i) = true := by
    have h1 : normalize_text query <+: (normalize_text page_text).drop i :=
      List.isPrefixOf_iff_prefix.mp hi
    have h2 := h1.map Char.toLower
    rw [List.map_drop] at h2
    exact List.isPrefixOf_iff_prefix.mpr (by simpa [to_lowercase] using h2)
  have hsome := findSubstr_isSome_of_isPrefix i _ hpref
  have hfuel : (to_lowercase (normalize_text page_text)).length - 0 <
      (normalize_text page_text).length + 1 := by
    simp [to_lowercase]
  obtain ⟨ms, hloop, hall, hne2⟩ :=
    literal_loop_spec hq' (normalize_text page_text) context_words
      ((normalize_text page_text).length + 1) 0 hfuel
  refine ⟨ms, ?_, ?_, hall⟩
  · simp only [search_in_page, Bool.false_eq_true, if_false]
    rw [hloop]
  · exact hne2 (by simpa using hsome)

/-- Witness for the amended containment claim at a concrete ASCII
input: page `"abc"` contains the literal query `"b"`, the two lowercase
models agree on the page, byte offsets equal character offsets, and the
run returns the match `"b"`. -/
theorem literal_query_contained_yields_match_inst :
    ((∀ c ∈ "abc".toList, char_is_ascii c = true) ∧
      (∀ c ∈ "b".toList, char_is_ascii c = true) ∧
      normalize_text "b".toList ≠ [] ∧
      (normalize_text "b".toList).isPrefixOf ((normalize_text "abc".toList).drop 1) = true) ∧
    rust_to_lowercase (normalize_text "abc".toList) =
      to_lowercase (normalize_text "abc".toList) ∧
    rust_to_lowercase (normalize_text "b".toList) =
      to_lowercase (normalize_text "b".toList) ∧
    byte_len (normalize_text "abc".toList) = (normalize_text "abc".toList).length ∧
    ∃ ms, search_in_page toy_engine "abc".toList "b".toList 1 false = .ok ms ∧ ms ≠ [] ∧
      ∀ t ∈ ms, to_lowercase t.2.1 = to_lowercase (normalize_text "b".toList) :=
  ⟨⟨by decide, by decide, by decide, by decide⟩,
    literal_query_contained_yields_match toy_engine "abc".toList "b".toList 1
      (by decide) (by decide) (by decide) ⟨1, by decide⟩⟩

theorem found_in_pdf_false_of_all_empty (eng : RegexEngine) (f : QueryItem)
    (cw : Nat) :
    ∀ (pages : List (Nat × List Char)),
      (∀ p ∈ pages, search_in_page eng p.2 f.query cw f.use_regex = .ok []) →
      found_in_pdf eng pages f cw = .ok false := by
  intro pages
  induction pages with
  | nil => intro _; rfl
  | cons p rest ih =>
    intro h
    obtain ⟨n, t⟩ := p
    have hp : search_in_page eng t f.query cw f.use_regex = .ok [] :=
      h (n, t) (List.mem_cons_self _ _)
    simp only [found_in_pdf, hp]
    exact ih fun q hq => h q (List.mem_cons_of_mem _ hq)

theorem run_filters_stops_false (eng : RegexEngine)
    (pages : List (Nat × List Char)) (cw : Nat) (q : QueryItem)
    (hq : found_in_pdf eng pages q cw = .ok false) :
    ∀ (pre post : List QueryItem),
      (∀ q' ∈ pre, ∃ b, found_in_pdf eng pages q' cw = .ok b) →
      run_filters eng pages (pre ++ q :: post) cw = .ok false := by
  intro pre
  induction pre with
  | nil =>
    intro post _
    simp only [List.nil_append, run_filters, hq]
    rfl
  | cons q' pre' ih =>
    intro post hpre
    obtain ⟨b, hb⟩ := hpre q' (List.mem_cons_self _ _)
    simp only [List.cons_append, run_filters, hb]
    cases b
    · rfl
    · exact ih post fun x hx => hpre x (List.mem_cons_of_mem _ hx)

/-- **C1**: if some filter-role query yields zero matches on every page
of the document (and the filters before it evaluate without error, so
the scan actually reaches it), `search_pdf_with_queries` returns the
empty match list — and it short-circuits: the conclusion holds with no
assumption whatsoever on the filters after the failing one or on any
parallel query, which may even be malformed regexes, showing they are
never evaluated. -/
theorem filter_zero_matches_rejects_document (eng : RegexEngine)
    (path : List Char) (doc : PdfDoc) (queries : List QueryItem) (cw : Nat)
    (zm : Option ZoteroMap) (pre : List QueryItem) (q : QueryItem)
    (post : List QueryItem)
    (hsplit : filter_queries_of queries = pre ++ q :: post)
    (hpre : ∀ q' ∈ pre, ∃ b,
      found_in_pdf eng (extract_text_from_pdf doc) q' cw = .ok b)
    (hzero : ∀ p ∈ extract_text_from_pdf doc,
      search_in_page eng p.2 q.query cw q.use_regex = .ok []) :
    search_pdf_with_queries eng path doc queries cw zm = .ok [] := by
  have hq := found_in_pdf_false_of_all_empty eng q cw _ hzero
  have hrf := run_filters_stops_false eng (extract_text_from_pdf doc) cw q hq pre post hpre
  simp only [search_pdf_with_queries, hsplit, hrf]
  rfl

/-- Witness for the filter-rejection claim: the first filter `"z"` finds
nothing in the one-page document `"x"`; the remaining filter is a
malformed regex `"["` and the parallel query `"x"` would match, yet the
result is the empty list. -/
theorem filter_zero_matches_rejects_document_inst :
    (filter_queries_of
        [⟨"z".toList, false, "filter", "#ffff00"⟩,
         ⟨"[".toList, true, "filter", "#ffff00"⟩,
         ⟨"x".toList, false, "parallel", "#ffff00"⟩] =
      [] ++ (⟨"z".toList, false, "filter", "#ffff00"⟩ : QueryItem) ::
        [⟨"[".toList, true, "filter", "#ffff00"⟩] ∧
      (∀ p ∈ extract_text_from_pdf [some "x".toList],
        search_in_page toy_engine p.2 "z".toList 1 false = .ok [])) ∧
    search_pdf_with_queries toy_engine "d.pdf".toList [some "x".toList]
      [⟨"z".toList, false, "filter", "#ffff00"⟩,
       ⟨"[".toList, true, "filter", "#ffff00"⟩,
       ⟨"x".toList, false, "parallel", "#ffff00"⟩] 1 none = .ok [] :=
  ⟨⟨by decide, by decide⟩,
    filter_zero_matches_rejects_document toy_engine "d.pdf".toList [some "x".toList]
      [⟨"z".toList, false, "filter", "#ffff00"⟩,
       ⟨"[".toList, true, "filter", "#ffff00"⟩,
       ⟨"x".toList, false, "parallel", "#ffff00"⟩] 1 none
      [] ⟨"z".toList, false, "filter", "#ffff00"⟩
      [⟨"[".toList, true, "filter", "#ffff00"⟩]
      (by decide) (by intro q' hq'; cases hq') (by decide)⟩

theorem no_parallel_fallback (eng : RegexEngine) (path : List Char)
    (doc : PdfDoc) (queries : List QueryItem) (cw : Nat) (zm : Option ZoteroMap)
    (q0 : QueryItem) (rest : List QueryItem)
    (hqs : queries = q0 :: rest)
    (hnp : ∀ q ∈ queries, ¬ q.query_type = "parallel") :
    search_pdf_with_queries eng path doc queries cw zm =
      (do
        let pass ← run_filters eng (extract_text_from_pdf doc)
          (filter_queries_of queries) cw
        if pass then
          collect_matches eng path (file_name_of path)
            ((zm.bind fun m => zlookup m (file_name_of path)).map ZoteroMetadata.zotero_link)
            (zm.bind fun m => zlookup m (file_name_of path)) cw
            (extract_text_from_pdf doc) [q0]
        else .ok []) := by
  have hpar : parallel_queries_of queries = [] := by
    rw [parallel_queries_of, List.filter_eq_nil_iff]
    intro q hq'
    simpa using hnp q hq'
  subst hqs
  simp only [search_pdf_with_queries, hpar]

/-- **C3**: (a) for a non-empty query list in which no query has the
parallel role, `search_pdf_with_queries` hands exactly the first query
of the original list to the parallel emission pass, so its matches are
the ones emitted once the filters pass; (b) a single query submitted
with no explicit role tag (serde default) behaves identically to the
same query explicitly tagged `"parallel"`. -/
theorem first_query_fallback_parallel :
    (∀ (eng : RegexEngine) (path : List Char) (doc : PdfDoc)
        (queries : List QueryItem) (cw : Nat) (zm : Option ZoteroMap)
        (q0 : QueryItem) (rest : List QueryItem),
      queries = q0 :: rest →
      (∀ q ∈ queries, ¬ q.query_type = "parallel") →
      search_pdf_with_queries eng path doc queries cw zm =
        (do
          let pass ← run_filters eng (extract_text_from_pdf doc)
            (filter_queries_of queries) cw
          if pass then
            collect_matches eng path (file_name_of path)
              ((zm.bind fun m => zlookup m (file_name_of path)).map ZoteroMetadata.zotero_link)
              (zm.bind fun m => zlookup m (file_name_of path)) cw
              (extract_text_from_pdf doc) [q0]
          else .ok [])) ∧
    (∀ (eng : RegexEngine) (path : List Char) (doc : PdfDoc) (q : List Char)
        (r : Bool) (col : Option String) (cw : Nat) (zm : Option ZoteroMap),
      search_pdf_with_queries eng path doc [QueryItem.ofWire q r none col] cw zm =
      search_pdf_with_queries eng path doc
        [QueryItem.ofWire q r (some "parallel") col] cw zm) :=
  ⟨no_parallel_fallback, fun _ _ _ _ _ _ _ _ => rfl⟩

/-- Witness for the fallback claim: a single filter-tagged query list —
the filter `"x"` is found in the document, and the emitted matches are
exactly those of that first (and only) query; plus the untagged/tagged
single-query instance. -/
theorem first_query_fallback_parallel_inst :
    ((∀ q ∈ [(⟨"x".toList, false, "filter", "#ffff00"⟩ : QueryItem)],
        ¬ q.query_type = "parallel") ∧
      search_pdf_with_queries toy_engine "d.pdf".toList [some "xy".toList]
        [⟨"x".toList, false, "filter", "#ffff00"⟩] 2 none =
        (do
          let pass ← run_filters toy_engine (extract_text_from_pdf [some "xy".toList])
            (filter_queries_of [⟨"x".toList, false, "filter", "#ffff00"⟩]) 2
          if pass then
            collect_matches toy_engine "d.pdf".toList (file_name_of "d.pdf".toList)
              (((none : Option ZoteroMap)).bind (fun m =>
                zlookup m (file_name_of "d.pdf".toList)) |>.map ZoteroMetadata.zotero_link)
              ((none : Option ZoteroMap).bind fun m =>
                zlookup m (file_name_of "d.pdf".toList)) 2
              (extract_text_from_pdf [some "xy".toList])
              [⟨"x".toList, false, "filter", "#ffff00"⟩]
          else .ok [])) ∧
    search_pdf_with_queries toy_engine "a".toList [some "q".toList]
      [QueryItem.ofWire "q".toList false none none] 1 none =
    search_pdf_with_queries toy_engine "a".toList [some "q".toList]
      [QueryItem.ofWire "q".toList false (some "parallel") none] 1 none :=
  ⟨⟨by decide,
    first_query_fallback_parallel.1 toy_engine "d.pdf".toList [some "xy".toList]
      [⟨"x".toList, false, "filter", "#ffff00"⟩] 2 none
      ⟨"x".toList, false, "filter", "#ffff00"⟩ [] rfl (by decide)⟩,
   first_query_fallback_parallel.2 toy_engine "a".toList [some "q".toList]
     "q".toList false none 1 none⟩

/-- **C4, as stated (refuted)**: with multiple queries all tagged
`"filter"`, a document satisfying every filter does *not* yield zero
matches: the single-query fallback fires (the parallel set is empty and
the list is not), so the first filter is also searched as a parallel
query and its occurrences are emitted.  Concretely, both filters `"a"`
and `"b"` are satisfied by the one-page document `"ab"`, and the result
is the one match of `"a"`, not the empty list. -/
theorem all_filter_queries_emit_first_query_matches_cex :
    (∀ q ∈ [(⟨"a".toList, false, "filter", "#ffff00"⟩ : QueryItem),
            ⟨"b".toList, false, "filter", "#ffff00"⟩], q.query_type = "filter") ∧
    run_filters toy_engine (extract_text_from_pdf [some "ab".toList])
      (filter_queries_of [⟨"a".toList, false, "filter", "#ffff00"⟩,
        ⟨"b".toList, false, "filter", "#ffff00"⟩]) 0 = .ok true ∧
    search_pdf_with_queries toy_engine "d.pdf".toList [some "ab".toList]
      [⟨"a".toList, false, "filter", "#ffff00"⟩,
       ⟨"b".toList, false, "filter", "#ffff00"⟩] 0 none ≠ .ok [] :=
  ⟨by decide, by decide, by decide⟩

/-- **C4, amended**: with multiple queries all tagged `"filter"` and
every filter satisfied (the filter pass returns true), the document
yields exactly the matches of the *first* query of the list, emitted
through the single-query compatibility fallback — not zero matches. -/
theorem all_filter_queries_emit_first_query_matches (eng : RegexEngine)
    (path : List Char) (doc : PdfDoc) (queries : List QueryItem) (cw : Nat)
    (zm : Option ZoteroMap) (q0 : QueryItem) (rest : List QueryItem)
    (hqs : queries = q0 :: rest)
    (hall : ∀ q ∈ queries, q.query_type = "filter")
    (hpass : run_filters eng (extract_text_from_pdf doc)
      (filter_queries_of queries) cw = .ok true) :
    search_pdf_with_queries eng path doc queries cw zm =
      collect_matches eng path (file_name_of path)
        ((zm.bind fun m => zlookup m (file_name_of path)).map ZoteroMetadata.zotero_link)
        (zm.bind fun m => zlookup m (file_name_of path)) cw
        (extract_text_from_pdf doc) [q0] := by
  have hnp : ∀ q ∈ queries, ¬ q.query_type = "parallel" := by
    intro qq hm
    rw [hall qq hm]
    decide
  rw [no_parallel_fallback eng path doc queries cw zm q0 rest hqs hnp, hpass]
  rfl

/-- Witness for the amended all-filters claim at the concrete document
`"ab"` with filters `"a"` and `"b"`. -/
theorem all_filter_queries_emit_first_query_matches_inst :
    ((∀ q ∈ [(⟨"a".toList, false, "filter", "#ffff00"⟩ : QueryItem),
             ⟨"b".toList, false, "filter", "#ffff00"⟩], q.query_type = "filter") ∧
      run_filters toy_engine (extract_text_from_pdf [some "ab".toList])
        (filter_queries_of [⟨"a".toList, false, "filter", "#ffff00"⟩,
          ⟨"b".toList, false, "filter", "#ffff00"⟩]) 3 = .ok true) ∧
    search_pdf_with_queries toy_engine "d.pdf".toList [some "ab".toList]
      [⟨"a".toList, false, "filter", "#ffff00"⟩,
       ⟨"b".toList, false, "filter", "#ffff00"⟩] 3 none =
      collect_matches toy_engine "d.pdf".toList (file_name_of "d.pdf".toList)
        (((none : Option ZoteroMap)).bind (fun m =>
          zlookup m (file_name_of "d.pdf".toList)) |>.map ZoteroMetadata.zotero_link)
        ((none : Option ZoteroMap).bind fun m =>
          zlookup m (file_name_of "d.pdf".toList)) 3
        (extract_text_from_pdf [some "ab".toList])
        [⟨"a".toList, false, "filter", "#ffff00"⟩] :=
  ⟨⟨by decide, by decide⟩,
    all_filter_queries_emit_first_query_matches toy_engine "d.pdf".toList
      [some "ab".toList]
      [⟨"a".toList, false, "filter", "#ffff00"⟩,
       ⟨"b".toList, false, "filter", "#ffff00"⟩] 3 none
      ⟨"a".toList, false, "filter", "#ffff00"⟩
      [⟨"b".toList, false, "filter", "#ffff00"⟩] rfl (by decide) (by decide)⟩

theorem except_bind_ok {ε α β : Type} (a : α) (f : α → Except ε β) :
    (Except.ok a : Except ε α) >>= f = f a := rfl

theorem except_bind_error {ε α β : Type} (e : ε) (f : α → Except ε β) :
    (Except.error e : Except ε α) >>= f = Except.error e := rfl

theorem page_matches_page_mem (eng : RegexEngine) (fp fn : List Char)
    (zl : Option (List Char)) (zmeta : Option ZoteroMetadata)
    (qi : QueryItem) (cw : Nat) :
    ∀ (pages : List (Nat × List Char)) (ms : List SearchMatch),
      page_matches eng fp fn zl zmeta qi cw pages = .ok ms →
      ∀ m ∈ ms, ∃ t, (m.page_number, t) ∈ pages := by
  intro pages
  induction pages with
  | nil =>
    intro ms h m hm
    injection h with h'
    subst h'
    cases hm
  | cons p rest ih =>
    intro ms h m hm
    obtain ⟨pn, pt⟩ := p
    simp only [page_matches] at h
    cases hs : search_in_page eng pt qi.query cw qi.use_regex with
    | error e =>
      rw [hs, except_bind_error] at h
      exact Except.noConfusion h
    | ok hits =>
      rw [hs, except_bind_ok] at h
      cases ht : page_matches eng fp fn zl zmeta qi cw rest with
      | error e =>
        rw [ht, except_bind_error] at h
        exact Except.noConfusion h
      | ok tail =>
        rw [ht, except_bind_ok] at h
        injection h with h'
        subst h'
        rcases List.mem_append.mp hm with h3 | h3
        · obtain ⟨t', _, rfl⟩ := List.mem_map.mp h3
          exact ⟨pt, List.mem_cons_self _ _⟩
        · obtain ⟨t, ht'⟩ := ih tail ht m h3
          exact ⟨t, List.mem_cons_of_mem _ ht'⟩

theorem collect_matches_page_mem (eng : RegexEngine) (fp fn : List Char)
    (zl : Option (List Char)) (zmeta : Option ZoteroMetadata)
    (cw : Nat) (pages : List (Nat × List Char)) :
    ∀ (qs : List QueryItem) (ms : List SearchMatch),
      collect_matches eng fp fn zl zmeta cw pages qs = .ok ms →
      ∀ m ∈ ms, ∃ t, (m.page_number, t) ∈ pages := by
  intro qs
  induction qs with
  | nil =>
    intro ms h m hm
    injection h with h'
    subst h'
    cases hm
  | cons q rest ih =>
    intro ms h m hm
    simp only [collect_matches] at h
    cases h1 : page_matches eng fp fn zl zmeta q cw pages with
    | error e =>
      rw [h1, except_bind_error] at h
      exact Except.noConfusion h
    | ok first =>
      rw [h1, except_bind_ok] at h
      cases h2 : collect_matches eng fp fn zl zmeta cw pages rest with
      | error e =>
        rw [h2, except_bind_error] at h
        exact Except.noConfusion h
      | ok tail =>
        rw [h2, except_bind_ok] at h
        injection h with h'
        subst h'
        rcases List.mem_append.mp hm with h3 | h3
        · exact page_matches_page_mem eng fp fn zl zmeta q cw pages first h1 m h3
        · exact ih tail h2 m h3

theorem extract_pages_from_map_fst :
    ∀ (doc : PdfDoc) (i : Nat),
      (extract_pages_from i doc).map Prod.fst = List.range' i doc.length := by
  intro doc
  induction doc with
  | nil => intro i; rfl
  | cons t rest ih =>
    intro i
    simp only [extract_pages_from, List.map_cons, List.length_cons, List.range'_succ]
    rw [ih (i + 1)]

/-- **C8**: every match returned by `search_pdf_with_queries` carries a
`page_number` that indexes a page actually present in the document's
extraction result, and the extraction result's indices are exactly
`1..=page_count` in physical order. -/
theorem match_page_number_in_extraction (eng : RegexEngine) (path : List Char)
    (doc : PdfDoc) (queries : List QueryItem) (cw : Nat) (zm : Option ZoteroMap)
    (ms : List SearchMatch)
    (h : search_pdf_with_queries eng path doc queries cw zm = .ok ms) :
    (∀ m ∈ ms, ∃ t, (m.page_number, t) ∈ extract_text_from_pdf doc) ∧
    (extract_text_from_pdf doc).map Prod.fst = List.range' 1 doc.length := by
  refine ⟨?_, extract_pages_from_map_fst doc 1⟩
  simp only [search_pdf_with_queries] at h
  cases hrf : run_filters eng (extract_text_from_pdf doc) (filter_queries_of queries) cw with
  | error e =>
    rw [hrf, except_bind_error] at h
    exact Except.noConfusion h
  | ok pass =>
    rw [hrf, except_bind_ok] at h
    cases pass with
    | false =>
      simp only [Bool.false_eq_true, if_false] at h
      injection h with h'
      subst h'
      intro m hm
      cases hm
    | true =>
      simp only [if_true] at h
      exact collect_matches_page_mem eng path (file_name_of path) _ _ cw
        (extract_text_from_pdf doc) _ ms h

/-- Witness for the page-number invariant: the single match of `"a"` in
the one-page document `"ab"` carries page number 1, which indexes the
extraction result. -/
theorem match_page_number_in_extraction_inst :
    (search_pdf_with_queries toy_engine "d.pdf".toList [some "ab".toList]
        [⟨"a".toList, false, "parallel", "#ffff00"⟩] 0 none =
      .ok [⟨"d.pdf".toList, "d.pdf".toList, 1, [], ['a'], [], none, none⟩]) ∧
    ((∀ m ∈ [(⟨"d.pdf".toList, "d.pdf".toList, 1, [], ['a'], [], none, none⟩ : SearchMatch)],
        ∃ t, (m.page_number, t) ∈ extract_text_from_pdf [some "ab".toList]) ∧
      (extract_text_from_pdf [some "ab".toList]).map Prod.fst =
        List.range' 1 ([some "ab".toList] : PdfDoc).length) :=
  ⟨by decide,
    match_page_number_in_extraction toy_engine "d.pdf".toList [some "ab".toList]
      [⟨"a".toList, false, "parallel", "#ffff00"⟩] 0 none
      [⟨"d.pdf".toList, "d.pdf".toList, 1, [], ['a'], [], none, none⟩] (by decide)⟩

theorem search_in_page_invalid_pattern (eng : RegexEngine) (q : List Char)
    (cw : Nat)
    (hcomp : eng.compile ('(' :: '?' :: 'i' :: ')' :: normalize_text q) = none) :
    ∀ page_text, search_in_page eng page_text q cw true = .error "InvalidPattern" := by
  intro t
  simp only [search_in_page]
  rw [hcomp]
  rfl

theorem page_matches_error_head (eng : RegexEngine) (fp fn : List Char)
    (zl : Option (List Char)) (zmeta : Option ZoteroMetadata) (q0 : QueryItem)
    (cw pn : Nat) (pt : List Char) (ptail : List (Nat × List Char))
    (hq : search_in_page eng pt q0.query cw q0.use_regex = .error "InvalidPattern") :
    page_matches eng fp fn zl zmeta q0 cw ((pn, pt) :: ptail) =
      .error "InvalidPattern" := by
  simp only [page_matches]
  rw [hq, except_bind_error]

theorem collect_matches_error_head (eng : RegexEngine) (fp fn : List Char)
    (zl : Option (List Char)) (zmeta : Option ZoteroMetadata) (cw : Nat)
    (pages : List (Nat × List Char)) (q0 : QueryItem) (qs : List QueryItem)
    (h : page_matches eng fp fn zl zmeta q0 cw pages = .error "InvalidPattern") :
    collect_matches eng fp fn zl zmeta cw pages (q0 :: qs) =
      .error "InvalidPattern" := by
  simp only [collect_matches]
  rw [h, except_bind_error]

theorem collect_matches_nil_pages (eng : RegexEngine) (fp fn : List Char)
    (zl : Option (List Char)) (zmeta : Option ZoteroMetadata) (cw : Nat) :
    ∀ qs, collect_matches eng fp fn zl zmeta cw [] qs = .ok [] := by
  intro qs
  induction qs with
  | nil => rfl
  | cons q rest ih =>
    simp only [collect_matches]
    rw [show page_matches eng fp fn zl zmeta q cw [] = .ok [] from rfl,
      except_bind_ok, ih, except_bind_ok]
    rfl

theorem search_pdfs_nil_of_all_nil (eng : RegexEngine) (corpus : Corpus)
    (queries : List QueryItem) (cw : Nat) (zm : Option ZoteroMap)
    (h : ∀ path doc,
      (match search_pdf_with_queries eng path doc queries cw zm with
        | .ok ms => ms
        | .error _ => []) = []) :
    search_pdfs eng corpus queries cw zm = [] := by
  by_cases hq : queries.isEmpty
  · simp [search_pdfs, hq]
  · by_cases hc : corpus.isEmpty
    · simp [search_pdfs, hq, hc]
    · simp only [search_pdfs, hq, hc, Bool.false_eq_true, if_false]
      rw [List.flatten_eq_nil_iff]
      intro l hl
      obtain ⟨⟨path, doc⟩, -, rfl⟩ := List.mem_map.mp hl
      exact h path doc

theorem malformed_first_parallel_document_dropped (eng : RegexEngine)
    (path : List Char) (doc : PdfDoc) (queries : List QueryItem) (cw : Nat)
    (zm : Option ZoteroMap) (q0 : QueryItem) (rest : List QueryItem)
    (hqs : queries = q0 :: rest)
    (hreg : q0.use_regex = true)
    (hpar : q0.query_type = "parallel")
    (hcomp : eng.compile ('(' :: '?' :: 'i' :: ')' :: normalize_text q0.query) = none) :
    (match search_pdf_with_queries eng path doc queries cw zm with
      | .ok ms => ms
      | .error _ => []) = [] := by
  subst hqs
  have hpq : parallel_queries_of (q0 :: rest) = q0 :: parallel_queries_of rest := by
    simp [parallel_queries_of, List.filter_cons, hpar]
  cases hrf : run_filters eng (extract_text_from_pdf doc)
      (filter_queries_of (q0 :: rest)) cw with
  | error e =>
    simp only [search_pdf_with_queries, hrf, except_bind_error]
  | ok pass =>
    cases pass with
    | false =>
      simp only [search_pdf_with_queries, hrf, except_bind_ok, Bool.false_eq_true,
        if_false]
    | true =>
      simp only [search_pdf_with_queries, hrf, except_bind_ok, if_true, hpq]
      cases hex : extract_text_from_pdf doc with
      | nil =>
        rw [collect_matches_nil_pages]
      | cons p ptail =>
        obtain ⟨pn, pt⟩ := p
        rw [collect_matches_error_head]
        exact page_matches_error_head eng path (file_name_of path) _ _ q0 cw pn pt
          ptail (by rw [hreg]; exact search_in_page_invalid_pattern eng q0.query cw hcomp pt)

/-- **C2, as stated (refuted)**: a corpus search whose query list
contains a regex query with a non-compiling pattern does *not* surface
`InvalidPattern` to the caller: `search_pdf_with_queries` raises the
error for the document, but `search_pdfs` drops erroring documents
(`filter_map` with `Err(_) => None`), so the invocation returns the
plain empty list with the failure swallowed. -/
theorem invalid_pattern_swallowed_by_search_pdfs :
    search_pdf_with_queries toy_engine "d.pdf".toList [some "hello".toList]
      [⟨"[".toList, true, "parallel", "#ffff00"⟩] 1 none = .error "InvalidPattern" ∧
    search_pdfs toy_engine [("d.pdf".toList, [some "hello".toList])]
      [⟨"[".toList, true, "parallel", "#ffff00"⟩] 1 none = [] :=
  ⟨by decide, by decide⟩

/-- **C2, amended**: `search_in_page` surfaces `InvalidPattern` for a
non-compiling regex query and the error propagates through
`search_pdf_with_queries`, but `search_pdfs` swallows per-document
errors, so when the first query is a malformed-regex parallel query the
corpus invocation returns the empty list — for every corpus — instead of
failing. -/
theorem invalid_pattern_error_per_document_but_dropped (eng : RegexEngine)
    (corpus : Corpus) (queries : List QueryItem) (cw : Nat)
    (zm : Option ZoteroMap) (q0 : QueryItem) (rest : List QueryItem)
    (hqs : queries = q0 :: rest)
    (hreg : q0.use_regex = true)
    (hpar : q0.query_type = "parallel")
    (hcomp : eng.compile ('(' :: '?' :: 'i' :: ')' :: normalize_text q0.query) = none) :
    search_pdfs eng corpus queries cw zm = [] ∧
    ∀ page_text, search_in_page eng page_text q0.query cw true =
      .error "InvalidPattern" :=
  ⟨search_pdfs_nil_of_all_nil eng corpus queries cw zm fun path doc =>
      malformed_first_parallel_document_dropped eng path doc queries cw zm q0 rest
        hqs hreg hpar hcomp,
    search_in_page_invalid_pattern eng q0.query cw hcomp⟩

/-- Witness for the amended swallowing claim at a concrete corpus. -/
theorem invalid_pattern_error_per_document_but_dropped_inst :
    toy_engine.compile ('(' :: '?' :: 'i' :: ')' :: normalize_text "[".toList) = none ∧
    search_pdfs toy_engine [("e.pdf".toList, [some "xy".toList])]
      [⟨"[".toList, true, "parallel", "#00ff00"⟩] 2 none = [] ∧
    search_in_page toy_engine "xy".toList "[".toList 2 true =
      .error "InvalidPattern" :=
  ⟨rfl,
   (invalid_pattern_error_per_document_but_dropped toy_engine
      [("e.pdf".toList, [some "xy".toList])]
      [⟨"[".toList, true, "parallel", "#00ff00"⟩] 2 none
      ⟨"[".toList, true, "parallel", "#00ff00"⟩ [] rfl rfl rfl rfl).1,
   (invalid_pattern_error_per_document_but_dropped toy_engine
      [("e.pdf".toList, [some "xy".toList])]
      [⟨"[".toList, true, "parallel", "#00ff00"⟩] 2 none
      ⟨"[".toList, true, "parallel", "#00ff00"⟩ [] rfl rfl rfl rfl).2
     "xy".toList⟩

theorem build_zotero_map_rows_clean (env : ZoteroEnv) (hasBbt : Bool)
    (fsIn : List (List Char)) (m : ZoteroMap) (fs : List (List Char))
    (h : build_zotero_map_rows env hasBbt fsIn = (.ok m, fs)) :
    temp_zotero_db ∉ fs ∧ (hasBbt = true → temp_bbt_db ∉ fs) ∧ fs ⊆ fsIn := by
  simp only [build_zotero_map_rows] at h
  split at h
  · exact Except.noConfusion (congrArg Prod.fst h)
  · split at h
    · exact Except.noConfusion (congrArg Prod.fst h)
    · have hfs := congrArg Prod.snd h
      simp only at hfs
      cases hasBbt with
      | false =>
        simp only [Bool.false_eq_true, if_false] at hfs
        subst hfs
        refine ⟨?_, ?_, (List.filter_sublist _).subset⟩
        · intro hm
          have := (List.mem_filter.mp hm).2
          simp at this
        · intro h'
          cases h'
      | true =>
        simp only [if_true] at hfs
        subst hfs
        refine ⟨?_, ?_, ((List.filter_sublist _).subset).trans ((List.filter_sublist _).subset)⟩
        · intro hm
          have := (List.mem_filter.mp ((List.mem_filter.mp hm).1)).2
          simp at this
        · intro _ hm
          have := (List.mem_filter.mp hm).2
          simp at this

/-- **C9, as stated (refuted)**: `build_zotero_map` does *not* remove its
temporary database copies on every exit path: with the Zotero database
present and copied but failing to open, the function returns an error
while the temp copy is still on disk. -/
theorem temp_db_leak_on_open_failure :
    build_zotero_map
      { zoteroDbExists := true, bbtDbExists := false, copyZoteroOk := true,
        openZoteroOk := false, copyBbtOk := false, openBbtOk := false,
        prepareOk := false, queryRows := none, getField := fun _ _ => none,
        getCreators := fun _ => none, getCitekey := fun _ => none } =
      (.error "Failed to open Zotero database".toList, [temp_zotero_db]) ∧
    temp_zotero_db ∈ [temp_zotero_db] :=
  ⟨rfl, by decide⟩

/-- **C9, amended**: `build_zotero_map` removes the temporary database
copies on its success path — whenever the call returns `Ok`, neither
temp copy remains — but error exits between temp creation and the
success-path cleanup (open, copy-of-BBT, prepare, or query failures)
leave the already-created temp copies on disk. -/
theorem temp_db_removed_on_success (env : ZoteroEnv) (m : ZoteroMap)
    (fs : List (List Char))
    (h : build_zotero_map env = (.ok m, fs)) :
    temp_zotero_db ∉ fs ∧ temp_bbt_db ∉ fs := by
  simp only [build_zotero_map] at h
  split at h
  · exact Except.noConfusion (congrArg Prod.fst h)
  · split at h
    · exact Except.noConfusion (congrArg Prod.fst h)
    · split at h
      · exact Except.noConfusion (congrArg Prod.fst h)
      · split at h
        · split at h
          · exact Except.noConfusion (congrArg Prod.fst h)
          · split at h
            · exact Except.noConfusion (congrArg Prod.fst h)
            · obtain ⟨h1, h2, -⟩ := build_zotero_map_rows_clean env true _ m fs h
              exact ⟨h1, h2 rfl⟩
        · obtain ⟨h1, -, hsub⟩ := build_zotero_map_rows_clean env false _ m fs h
          refine ⟨h1, fun hm => ?_⟩
          have := hsub hm
          simp only [List.mem_singleton] at this
          exact absurd this (by decide)

/-- Witness for the success-path cleanup: an environment where every
step succeeds (with an empty row set) returns `Ok` and leaves no temp
file behind. -/
theorem temp_db_removed_on_success_inst :
    build_zotero_map
      { zoteroDbExists := true, bbtDbExists := true, copyZoteroOk := true,
        openZoteroOk := true, copyBbtOk := true, openBbtOk := true,
        prepareOk := true, queryRows := some [], getField := fun _ _ => none,
        getCreators := fun _ => none, getCitekey := fun _ => none } =
      (.ok [], []) ∧
    (temp_zotero_db ∉ ([] : List (List Char)) ∧
      temp_bbt_db ∉ ([] : List (List Char))) :=
  ⟨rfl,
    temp_db_removed_on_success
      { zoteroDbExists := true, bbtDbExists := true, copyZoteroOk := true,
        openZoteroOk := true, copyBbtOk := true, openBbtOk := true,
        prepareOk := true, queryRows := some [], getField := fun _ _ => none,
        getCreators := fun _ => none, getCitekey := fun _ => none }
      [] [] rfl⟩

/-- **C10** (refuted; the code can panic): searching the lowercased
normalized page can produce byte offsets that are not valid positions of
the original normalized page.  For page text `İa` (U+0130 then `a`) and
literal query `a`: `to_lowercase` expands U+0130 to the two characters
`i` + U+0307, so the lowered page is one byte longer than the original;
the query is found at byte offset 3 of the lowered page and `match_end`
is 4, but the original normalized page is only 3 bytes long, so the Rust
slice `normalized_page[3..4]` is out of bounds and panics. -/
theorem lowercase_byte_offset_out_of_bounds :
    literal_byte_offsets [Char.ofNat 0x130, 'a'] ['a'] = some (3, 4) ∧
    byte_len (normalize_text [Char.ofNat 0x130, 'a']) = 3 ∧
    slice_ok (normalize_text [Char.ofNat 0x130, 'a']) 3 4 = false := by
  refine ⟨by decide, by decide, by decide⟩

end PdfSearch
